import Mathlib

/-!
Verification of the `pdf2yaml` command-line utility (src/pdf2yaml.py).

The program is shallowly embedded: the pure helpers (`markdown_to_yaml_template`,
`progress_callback`, output-path resolution) become Lean functions, and `main`
becomes a function from the parsed arguments and an environment (file-system
existence, converter behaviour, write success) to an exit code plus an ordered
trace of observable events (stdout prints and the file write).

Python `pathlib` conventions used by the source (`Path.suffix`,
`Path.with_suffix`) are embedded following CPython's algorithm on the final
path component.  Path-string normalisation performed by the `Path` constructor
(collapsing duplicate separators, dropping trailing separators and `.`
components) is not modelled: paths are taken in normal form.  Python `float`
percentages are modelled by rationals; no claim depends on binary floating
point representation, only on ordering against 100 and on the rendered text
being newline-free.
-/

set_option maxRecDepth 16384

namespace Pdf2Yaml

/-! ### Path model (CPython `pathlib` semantics on the final component) -/

/-- Final component of a path string: characters after the last separator. -/
def pathName (p : String) : String :=
  String.mk (p.data.reverse.takeWhile (fun c => c != '/')).reverse

/-- Everything up to and including the last separator. -/
def pathParent (p : String) : String :=
  String.mk (p.data.reverse.dropWhile (fun c => c != '/')).reverse

/-- Suffix computation on the reversed character list of a name.  With `i`
the index of the last dot in the name, CPython returns `name[i:]` when
`0 < i < len(name) - 1`, and the empty suffix otherwise: on the reversed
list, the characters strictly after the last dot are the longest dot-free
initial segment, the `i < len - 1` test is that segment being non-empty, and
the `0 < i` test is the remainder after the dot being non-empty. -/
def suffixRevAux (r : List Char) : List Char :=
  match r.dropWhile (fun c => c != '.') with
  | [] => []
  | _ :: rest =>
    if rest.isEmpty || (r.takeWhile (fun c => c != '.')).isEmpty then []
    else '.' :: (r.takeWhile (fun c => c != '.')).reverse

/-- CPython `PurePath.suffix`: the extension of the final component. -/
def pathSuffix (p : String) : String :=
  String.mk (suffixRevAux (pathName p).data.reverse)

/-- CPython `PurePath.with_suffix`: drop the old suffix of the name (if any)
and append the new one.  The `ValueError` branches for an invalid replacement
suffix or an empty name are not modelled: the program only calls this with
`".md"` or `".yaml"` on a path whose suffix is `".pdf"` case-insensitively. -/
def withSuffix (p sfx : String) : String :=
  let name := pathName p
  let old := pathSuffix p
  let newName :=
    if old = "" then name ++ sfx
    else String.mk (name.data.take (name.data.length - old.data.length)) ++ sfx
  pathParent p ++ newName

/-- Python `str.lower()` restricted to ASCII, which is all the program's
`.pdf` comparison can distinguish. -/
def strLower (s : String) : String :=
  String.mk (s.data.map Char.toLower)

/-! ### Decimal rendering (Python `str` of `int`, `format(x, '.1f')`) -/

/-- Digit characters of a natural number, accumulator style; `fuel` bounds
the recursion and is always called with `fuel > n`. -/
def decDigitsGo : Nat → Nat → List Char → List Char
  | 0, _, acc => acc
  | fuel + 1, n, acc =>
    let d := Char.ofNat (48 + n % 10)
    if n < 10 then d :: acc else decDigitsGo fuel (n / 10) (d :: acc)

/-- Decimal rendering of a natural number. -/
def natToDec (n : Nat) : String :=
  String.mk (decDigitsGo (n + 1) n [])

/-- Decimal rendering of an integer, as Python prints an `int`. -/
def intToDec (i : Int) : String :=
  (if i < 0 then "-" else "") ++ natToDec i.natAbs

/-- Rounding to the nearest integer, ties to even, as Python `format`
rounds decimal digits. -/
def rndHalfEven (q : ℚ) : Int :=
  let f := q.floor
  let r := q - (f : ℚ)
  if r < 1 / 2 then f
  else if 1 / 2 < r then f + 1
  else if f % 2 = 0 then f else f + 1

/-- Python `format(x, '.1f')` on a rational stand-in for the float. -/
def fmt1 (q : ℚ) : String :=
  let s := rndHalfEven (q * 10)
  let a := s.natAbs
  (if s < 0 then "-" else "") ++ natToDec (a / 10) ++ "." ++ natToDec (a % 10)

/-! ### Progress events and the progress callback -/

/-- A progress object passed by the converter to the callback:
`phase.value`, `current_page`, `total_pages`, `percentage`. -/
structure Progress where
  phase : String
  current_page : Int
  total_pages : Int
  percentage : ℚ
deriving DecidableEq

/-- Text written to stdout by one invocation of `progress_callback`: the
`\r`-led formatted line printed with `end=""`, then a bare `print()`
(a newline) when `progress.percentage >= 100`. -/
def progress_callback (progress : Progress) : String :=
  "\rPhase: " ++ progress.phase ++ ", Page " ++ intToDec progress.current_page ++
    "/" ++ intToDec progress.total_pages ++ ", Progress: " ++
    fmt1 progress.percentage ++ "%" ++
    (if (100 : ℚ) ≤ progress.percentage then "\n" else "")

/-! ### Template assembler (`markdown_to_yaml_template`) -/

/-- The literal text of the triple-quoted template before the format hole,
byte for byte (including trailing spaces on the blank-ish lines). -/
def yaml_template_before : String :=
  "# YAML PRD - Generated from PDF\n" ++
  "# Review and edit this template to match your needs\n" ++
  "\n" ++
  "prd:\n" ++
  "  title: \"TODO: Extract title from document\"\n" ++
  "  purpose: \"TODO: Extract purpose/objective from document\"\n" ++
  "  \n" ++
  "  features:\n" ++
  "    # TODO: Extract user stories/features from the markdown content\n" ++
  "    - id: F1\n" ++
  "      user_story: \"As a [user], I can [action] so that [benefit]\"\n" ++
  "    - id: F2\n" ++
  "      user_story: \"...\"\n" ++
  "  \n" ++
  "  metrics:\n" ++
  "    # TODO: Extract success metrics/KPIs\n" ++
  "    - metric: Metric_Name\n" ++
  "      target: \"Target value\"\n" ++
  "  \n" ++
  "  constraints:\n" ++
  "    # TODO: Extract constraints, limitations, and requirements\n" ++
  "    - \"Constraint 1\"\n" ++
  "    - \"Constraint 2\"\n" ++
  "\n" ++
  "# Optional sections (uncomment as needed):\n" ++
  "# technical_specs:\n" ++
  "#   api:\n" ++
  "#     - endpoint: /api/v1/resource\n" ++
  "#       method: POST\n" ++
  "#   database:\n" ++
  "#     table_name:\n" ++
  "#       column: type\n" ++
  "# \n" ++
  "# dependencies:\n" ++
  "#   - name: service_name\n" ++
  "#     version: \">=1.0\"\n" ++
  "# \n" ++
  "# testing:\n" ++
  "#   coverage: 80\n" ++
  "#   scenarios:\n" ++
  "#     - name: scenario_name\n" ++
  "\n" ++
  "# === Original Markdown Content ===\n" ++
  "# Use this content to fill in the YAML structure above\n" ++
  "---\n"

/-- Python function `markdown_to_yaml_template`: the triple-quoted template
with the markdown substituted for the format hole; the hole is followed by
the template's final newline. -/
def markdown_to_yaml_template (markdown_content : String) : String :=
  yaml_template_before ++ markdown_content ++ "\n"

/-! ### CLI driver (`main`) -/

/-- Parsed command-line arguments (`argparse` result): the positional PDF
path, the optional `-o, --output` override, and the three store-true flags. -/
structure Args where
  pdf_file : String
  output : Option String
  markdown_only : Bool
  keep_headers : Bool
  include_empty_tables : Bool
deriving DecidableEq

/-- The configuration the program hands to `PDF2Markdown4LLM` together with
the source path passed to `convert` (the progress callback, always
`progress_callback`, is kept out of the request). -/
structure ConvReq where
  path : String
  remove_headers : Bool
  skip_empty_tables : Bool
  table_header : String
deriving DecidableEq

/-- One observable effect of a run: a string printed to stdout, or the
output file being written with the given content. -/
inductive Event where
  | out (s : String)
  | fileWrite (path : String) (content : String)
deriving DecidableEq

/-- Environment a run executes in: which paths exist, what the external
converter returns (`Except` message on a raised exception), which progress
events the converter fires before returning, and whether opening/writing the
output file raises (`some` exception message) or succeeds (`none`). -/
structure Env where
  pathExists : String → Bool
  convert : ConvReq → Except String String
  progressEvents : List Progress
  writeError : String → Option String

/-- Result of a run: the process exit code and the ordered trace of
observable events. -/
structure RunResult where
  exitCode : Nat
  events : List Event
deriving DecidableEq

/-- Output-path resolution (lines 120–125 of the source): the explicit
`-o, --output` value if given, else the input with its suffix replaced by
`.md` (markdown-only) or `.yaml` (default). -/
def resolve_output_path (args : Args) : String :=
  match args.output with
  | some o => o
  | none => withSuffix args.pdf_file (if args.markdown_only then ".md" else ".yaml")

/-- The request `main` builds for the converter: the flag negations happen at
the call site (`remove_headers=not args.keep_headers`,
`skip_empty_tables=not args.include_empty_tables`), and the constructor
additionally fixes `table_header="### Table"`. -/
def converter_request (args : Args) : ConvReq :=
  { path := args.pdf_file
    remove_headers := !args.keep_headers
    skip_empty_tables := !args.include_empty_tables
    table_header := "### Table" }

/-- Text of the f-string print reporting a missing input file. -/
def notFoundMsg (p : String) : String :=
  "Error: File '" ++ p ++ "' not found\n"

/-- Text of the f-string print reporting an input file that is not a PDF. -/
def notPdfMsg (p : String) : String :=
  "Error: File '" ++ p ++ "' is not a PDF\n"

/-- Text of the broad handler's error print: a leading newline, then the
message. -/
def convErrMsg (e : String) : String :=
  "\nError converting PDF: " ++ e ++ "\n"

/-- The single status print of markdown-only mode. -/
def mdStatusEvents (output_path : String) : List Event :=
  [.out ("\nMarkdown saved to: " ++ output_path ++ "\n")]

/-- The status print plus the four-line next-steps guide of default mode. -/
def yamlStatusEvents (output_path : String) : List Event :=
  [.out ("\nYAML PRD template saved to: " ++ output_path ++ "\n"),
   .out "\nNext steps:\n",
   .out "1. Open the YAML file and review the generated template\n",
   .out "2. Extract relevant information from the markdown section\n",
   .out "3. Fill in the TODO sections with actual content\n",
   .out "4. Remove the markdown section once extraction is complete\n"]

/-- Trace of `pdf_to_markdown` up to the converter's return: the
`Converting ... to Markdown...` print followed by the stdout of each progress
callback the converter fires. -/
def pdf_to_markdown_events (pdf_path : String) (env : Env) : List Event :=
  Event.out ("Converting " ++ pdf_path ++ " to Markdown...\n") ::
    env.progressEvents.map (fun p => Event.out (progress_callback p))

/-- The `main` function: validation, output-path resolution, conversion,
output generation, file write, with the `try`/`except` around steps 4–6.
Each Python `print(x)` becomes an `Event.out` carrying `x` plus the trailing
newline `print` appends. -/
def mainRun (args : Args) (env : Env) : RunResult :=
  let pdf_path := args.pdf_file
  if !env.pathExists pdf_path then
    { exitCode := 1, events := [.out (notFoundMsg pdf_path)] }
  else if !(strLower (pathSuffix pdf_path) == ".pdf") then
    { exitCode := 1, events := [.out (notPdfMsg pdf_path)] }
  else
    let output_path := resolve_output_path args
    let convEvents := pdf_to_markdown_events pdf_path env
    match env.convert (converter_request args) with
    | .error e =>
      { exitCode := 1, events := convEvents ++ [.out (convErrMsg e)] }
    | .ok markdown_content =>
      let output_content :=
        if args.markdown_only then markdown_content
        else markdown_to_yaml_template markdown_content
      let statusEvents : List Event :=
        if args.markdown_only then mdStatusEvents output_path
        else yamlStatusEvents output_path
      match env.writeError output_path with
      | some e =>
        { exitCode := 1
          events := convEvents ++ statusEvents ++ [.out (convErrMsg e)] }
      | none =>
        { exitCode := 0
          events := convEvents ++ statusEvents ++
            [.fileWrite output_path output_content] }

/-- The files a run writes: `(path, content)` of each `fileWrite` event. -/
def writtenFilesL (evs : List Event) : List (String × String) :=
  evs.filterMap fun e =>
    match e with
    | .fileWrite p c => some (p, c)
    | .out _ => none

/-- The files a run writes, read off its trace. -/
def writtenFiles (r : RunResult) : List (String × String) :=
  writtenFilesL r.events

/-- Concatenation of a sequence of stdout emissions. -/
def concatOut : List String → String
  | [] => ""
  | s :: rest => s ++ concatOut rest

/-- Number of newline characters in a string. -/
def countNl (s : String) : Nat :=
  s.data.count '\n'

/-- Everything the progress handler writes to stdout over a sequence of
progress events. -/
def progressStdout (ps : List Progress) : String :=
  concatOut (ps.map progress_callback)

/-! ### Concrete environments used to instantiate the theorems -/

/-- Environment in which `doc.pdf` and `notes.txt` exist, conversion yields
`"hello"`, and the write succeeds. -/
def envOk : Env :=
  { pathExists := fun s => s == "doc.pdf" || s == "notes.txt"
    convert := fun _ => .ok "hello"
    progressEvents := []
    writeError := fun _ => none }

/-- Like `envOk`, but the converter function differs everywhere except on
requests with header removal enabled and empty-table skipping enabled — the
configuration a run with neither flag set uses. -/
def envOkVariant : Env :=
  { pathExists := fun s => s == "doc.pdf" || s == "notes.txt"
    convert := fun r =>
      if r.remove_headers && r.skip_empty_tables then .ok "hello"
      else .error "different"
    progressEvents := []
    writeError := fun _ => none }

/-- Environment in which `doc.pdf` exists but the converter raises
`"boom"`. -/
def envConvErr : Env :=
  { pathExists := fun s => s == "doc.pdf"
    convert := fun _ => .error "boom"
    progressEvents := []
    writeError := fun _ => none }

/-- Environment in which `doc.pdf` exists and conversion yields `"hello"`,
but opening the output file raises `"denied"`. -/
def envWriteErr : Env :=
  { pathExists := fun s => s == "doc.pdf"
    convert := fun _ => .ok "hello"
    progressEvents := []
    writeError := fun _ => some "denied" }

/-! ### Helper lemmas: strings and paths -/

theorem dropWhile_head_false {q : Char → Bool} {l : List Char} {c : Char}
    {rest : List Char} (h : l.dropWhile q = c :: rest) : q c = false := by
  induction l with
  | nil => simp [List.dropWhile] at h
  | cons a l ih =>
    rw [List.dropWhile_cons] at h
    by_cases ha : q a
    · exact ih (by simpa [ha] using h)
    · obtain ⟨rfl, -⟩ := by simpa [ha] using h
      simpa using ha

theorem pathParent_append_pathName (p : String) :
    pathParent p ++ pathName p = p := by
  apply String.ext
  rw [String.data_append]
  show (p.data.reverse.dropWhile (fun c => c != '/')).reverse ++
      (p.data.reverse.takeWhile (fun c => c != '/')).reverse = p.data
  rw [← List.reverse_append, List.takeWhile_append_dropWhile, List.reverse_reverse]

theorem suffixRevAux_decomp {r : List Char} (h : suffixRevAux r ≠ []) :
    ∃ stem : List Char, r.reverse = stem ++ suffixRevAux r := by
  unfold suffixRevAux at h ⊢
  cases hdw : r.dropWhile (fun c => c != '.') with
  | nil => simp [hdw] at h
  | cons c rest =>
    simp only [hdw] at h ⊢
    by_cases hcond : (rest.isEmpty || (r.takeWhile (fun c => c != '.')).isEmpty) = true
    · rw [if_pos hcond] at h; simp at h
    · rw [if_neg hcond]
      have hc : c = '.' := by
        have := dropWhile_head_false hdw
        simpa using this
      refine ⟨rest.reverse, ?_⟩
      conv_lhs => rw [← List.takeWhile_append_dropWhile (fun c => c != '.') r, hdw, hc]
      rw [List.reverse_append, List.reverse_cons]
      simp

theorem pathSuffix_data (p : String) :
    (pathSuffix p).data = suffixRevAux (pathName p).data.reverse := rfl

theorem pathName_decomp_of_suffix_ne {p : String} (h : pathSuffix p ≠ "") :
    ∃ stem : List Char, (pathName p).data = stem ++ (pathSuffix p).data := by
  have h' : suffixRevAux (pathName p).data.reverse ≠ [] := by
    intro hc
    exact h (String.ext (by rw [pathSuffix_data, hc]))
  obtain ⟨stem, hstem⟩ := suffixRevAux_decomp h'
  exact ⟨stem, by rw [pathSuffix_data, ← hstem, List.reverse_reverse]⟩

theorem strLower_data (s : String) :
    (strLower s).data = s.data.map Char.toLower := rfl

theorem pathSuffix_length_of_lower_pdf {p : String}
    (h : strLower (pathSuffix p) = ".pdf") : (pathSuffix p).data.length = 4 := by
  have hd : (strLower (pathSuffix p)).data = ".pdf".data := by rw [h]
  rw [strLower_data] at hd
  have := congrArg List.length hd
  simpa using this

theorem pathSuffix_ne_empty_of_lower_pdf {p : String}
    (h : strLower (pathSuffix p) = ".pdf") : pathSuffix p ≠ "" := by
  intro hc
  rw [hc] at h
  exact absurd (congrArg String.data h) (by decide)

/-! ### Helper lemmas: run traces -/

theorem writtenFilesL_nil : writtenFilesL [] = [] := rfl

theorem writtenFilesL_cons_out (s : String) (l : List Event) :
    writtenFilesL (.out s :: l) = writtenFilesL l := rfl

theorem writtenFilesL_cons_write (p c : String) (l : List Event) :
    writtenFilesL (.fileWrite p c :: l) = (p, c) :: writtenFilesL l := rfl

theorem writtenFilesL_append (a b : List Event) :
    writtenFilesL (a ++ b) = writtenFilesL a ++ writtenFilesL b :=
  List.filterMap_append a b _

theorem writtenFilesL_convEvents (p : String) (env : Env) :
    writtenFilesL (pdf_to_markdown_events p env) = [] := by
  rw [writtenFilesL, List.filterMap_eq_nil_iff]
  intro e he
  rw [pdf_to_markdown_events] at he
  simp only [List.mem_cons, List.mem_map] at he
  rcases he with rfl | ⟨q, hq, rfl⟩ <;> rfl

theorem writtenFilesL_mdStatus (op : String) :
    writtenFilesL (mdStatusEvents op) = [] := rfl

theorem writtenFilesL_yamlStatus (op : String) :
    writtenFilesL (yamlStatusEvents op) = [] := rfl

theorem writtenFilesL_statusEvents (b : Bool) (op : String) :
    writtenFilesL (if b then mdStatusEvents op else yamlStatusEvents op) = [] := by
  cases b <;> rfl

/-! ### Branch lemmas for `mainRun` -/

theorem mainRun_not_found {args : Args} {env : Env}
    (h : env.pathExists args.pdf_file = false) :
    mainRun args env = ⟨1, [.out (notFoundMsg args.pdf_file)]⟩ := by
  simp [mainRun, h]

theorem mainRun_not_pdf {args : Args} {env : Env}
    (h1 : env.pathExists args.pdf_file = true)
    (h2 : strLower (pathSuffix args.pdf_file) ≠ ".pdf") :
    mainRun args env = ⟨1, [.out (notPdfMsg args.pdf_file)]⟩ := by
  simp [mainRun, h1, h2]

theorem mainRun_conv_error {args : Args} {env : Env} {e : String}
    (h1 : env.pathExists args.pdf_file = true)
    (h2 : strLower (pathSuffix args.pdf_file) = ".pdf")
    (h3 : env.convert (converter_request args) = .error e) :
    mainRun args env =
      ⟨1, pdf_to_markdown_events args.pdf_file env ++ [.out (convErrMsg e)]⟩ := by
  simp [mainRun, h1, h2, h3]

theorem mainRun_write_error {args : Args} {env : Env} {m e : String}
    (h1 : env.pathExists args.pdf_file = true)
    (h2 : strLower (pathSuffix args.pdf_file) = ".pdf")
    (h3 : env.convert (converter_request args) = .ok m)
    (h4 : env.writeError (resolve_output_path args) = some e) :
    mainRun args env =
      ⟨1, pdf_to_markdown_events args.pdf_file env ++
        (if args.markdown_only then mdStatusEvents (resolve_output_path args)
         else yamlStatusEvents (resolve_output_path args)) ++
        [.out (convErrMsg e)]⟩ := by
  simp [mainRun, h1, h2, h3, h4]

theorem mainRun_write_ok {args : Args} {env : Env} {m : String}
    (h1 : env.pathExists args.pdf_file = true)
    (h2 : strLower (pathSuffix args.pdf_file) = ".pdf")
    (h3 : env.convert (converter_request args) = .ok m)
    (h4 : env.writeError (resolve_output_path args) = none) :
    mainRun args env =
      ⟨0, pdf_to_markdown_events args.pdf_file env ++
        (if args.markdown_only then mdStatusEvents (resolve_output_path args)
         else yamlStatusEvents (resolve_output_path args)) ++
        [.fileWrite (resolve_output_path args)
          (if args.markdown_only then m else markdown_to_yaml_template m)]⟩ := by
  simp [mainRun, h1, h2, h3, h4]

/-- Every file a run writes is written at the resolved output path. -/
theorem writtenFiles_path (args : Args) (env : Env) :
    ∀ pc ∈ writtenFiles (mainRun args env), pc.1 = resolve_output_path args := by
  intro pc hpc
  by_cases h1 : env.pathExists args.pdf_file = true
  · by_cases h2 : strLower (pathSuffix args.pdf_file) = ".pdf"
    · cases h3 : env.convert (converter_request args) with
      | error e =>
        rw [writtenFiles, mainRun_conv_error h1 h2 h3] at hpc
        simp [writtenFilesL_append, writtenFilesL_convEvents,
          writtenFilesL_cons_out, writtenFilesL_nil] at hpc
      | ok m =>
        cases h4 : env.writeError (resolve_output_path args) with
        | some e =>
          rw [writtenFiles, mainRun_write_error h1 h2 h3 h4] at hpc
          simp [writtenFilesL_append, writtenFilesL_convEvents,
            writtenFilesL_statusEvents, writtenFilesL_cons_out,
            writtenFilesL_nil] at hpc
        | none =>
          rw [writtenFiles, mainRun_write_ok h1 h2 h3 h4] at hpc
          simp [writtenFilesL_append, writtenFilesL_convEvents,
            writtenFilesL_statusEvents, writtenFilesL_cons_write,
            writtenFilesL_nil] at hpc
          rw [hpc]
    · rw [writtenFiles, mainRun_not_pdf h1 h2] at hpc
      simp [writtenFilesL_cons_out, writtenFilesL_nil] at hpc
  · rw [writtenFiles, mainRun_not_found (by simpa using h1)] at hpc
    simp [writtenFilesL_cons_out, writtenFilesL_nil] at hpc

/-- Under the program's extension check, `with_suffix` replaces the final
four characters (the `.pdf`-like suffix) of the path by the new suffix. -/
theorem withSuffix_data_of_pdf {p : String}
    (h : strLower (pathSuffix p) = ".pdf") :
    ∃ stem : List Char,
      p.data = stem ++ (pathSuffix p).data ∧
      ∀ s : String, (withSuffix p s).data = stem ++ s.data := by
  obtain ⟨stem₀, hname⟩ := pathName_decomp_of_suffix_ne (pathSuffix_ne_empty_of_lower_pdf h)
  have hlen := pathSuffix_length_of_lower_pdf h
  refine ⟨(pathParent p).data ++ stem₀, ?_, ?_⟩
  · have hp : p.data = (pathParent p).data ++ (pathName p).data := by
      conv_lhs => rw [← pathParent_append_pathName p]
      rw [String.data_append]
    rw [hp, hname, List.append_assoc]
  · intro s
    show (pathParent p ++ _).data = _
    rw [String.data_append]
    rw [if_neg (pathSuffix_ne_empty_of_lower_pdf h)]
    rw [String.data_append]
    have htake : (pathName p).data.take
        ((pathName p).data.length - (pathSuffix p).data.length) = stem₀ := by
      rw [hname, List.length_append, Nat.add_sub_cancel]
      exact List.take_left stem₀ (pathSuffix p).data
    show (pathParent p).data ++ ((pathName p).data.take _ ++ s.data) = _
    rw [htake, List.append_assoc]

/-! ### Claims -/

/-- C1: for every run on an existing input path with a `.pdf` extension
(case-insensitive) and no `-o, --output` argument, the output path is the
input path with its extension replaced by `.yaml` when the markdown-only
flag is absent and by `.md` when it is present: the resolved path is the
input minus its suffix plus the new extension, and every file the run
writes is written at that resolved path. -/
theorem C1_default_output_path (args : Args) (env : Env)
    (hex : env.pathExists args.pdf_file = true)
    (hsfx : strLower (pathSuffix args.pdf_file) = ".pdf")
    (hout : args.output = none) :
    (∃ stem : List Char,
        args.pdf_file.data = stem ++ (pathSuffix args.pdf_file).data ∧
        (resolve_output_path args).data =
          stem ++ (if args.markdown_only then ".md" else ".yaml").data) ∧
    ∀ pc ∈ writtenFiles (mainRun args env), pc.1 = resolve_output_path args := by
  refine ⟨?_, writtenFiles_path args env⟩
  obtain ⟨stem, hp, hw⟩ := withSuffix_data_of_pdf hsfx
  refine ⟨stem, hp, ?_⟩
  rw [resolve_output_path, hout]
  exact hw _

/-- C1 witness: on `doc.pdf` with no output override in default mode the
resolved output path is `doc.yaml`. -/
theorem C1_default_output_path_witness :
    ∃ stem : List Char,
      ("doc.pdf" : String).data = stem ++ (pathSuffix "doc.pdf").data ∧
      (resolve_output_path ⟨"doc.pdf", none, false, false, false⟩).data =
        stem ++ (if false then ".md" else ".yaml" : String).data :=
  (C1_default_output_path ⟨"doc.pdf", none, false, false, false⟩ envOk
    (by decide) (by decide) rfl).1

/-- C2: for every input path that does not exist, and for every existing
input path whose extension is not `.pdf` case-insensitively, the program
prints the corresponding error message as its only output, exits with code
1, and writes no file — in particular no conversion event precedes the
exit. -/
theorem C2_invalid_input (args : Args) (env : Env) :
    (env.pathExists args.pdf_file = false →
      mainRun args env = ⟨1, [.out (notFoundMsg args.pdf_file)]⟩ ∧
      writtenFiles (mainRun args env) = []) ∧
    (env.pathExists args.pdf_file = true →
      strLower (pathSuffix args.pdf_file) ≠ ".pdf" →
      mainRun args env = ⟨1, [.out (notPdfMsg args.pdf_file)]⟩ ∧
      writtenFiles (mainRun args env) = []) := by
  constructor
  · intro h
    have hrun := @mainRun_not_found args env h
    exact ⟨hrun, by rw [writtenFiles, hrun]; rfl⟩
  · intro h1 h2
    have hrun := @mainRun_not_pdf args env h1 h2
    exact ⟨hrun, by rw [writtenFiles, hrun]; rfl⟩

/-- C2 witness: a missing file and an existing `.txt` file each exit 1
with the corresponding message and no write. -/
theorem C2_invalid_input_witness :
    (mainRun ⟨"missing.pdf", none, false, false, false⟩ envOk =
      ⟨1, [.out (notFoundMsg "missing.pdf")]⟩) ∧
    (mainRun ⟨"notes.txt", none, false, false, false⟩ envOk =
      ⟨1, [.out (notPdfMsg "notes.txt")]⟩) :=
  ⟨((C2_invalid_input ⟨"missing.pdf", none, false, false, false⟩ envOk).1
      (by decide)).1,
   ((C2_invalid_input ⟨"notes.txt", none, false, false, false⟩ envOk).2
      (by decide) (by decide)).1⟩

/-- C3: in markdown-only mode, every successful run writes exactly one
file, whose content is byte for byte the Markdown text the conversion step
returned, with nothing added; the run exits 0. -/
theorem C3_markdown_only_roundtrip (args : Args) (env : Env) (m : String)
    (hex : env.pathExists args.pdf_file = true)
    (hsfx : strLower (pathSuffix args.pdf_file) = ".pdf")
    (hmd : args.markdown_only = true)
    (hconv : env.convert (converter_request args) = .ok m)
    (hw : env.writeError (resolve_output_path args) = none) :
    writtenFiles (mainRun args env) = [(resolve_output_path args, m)] ∧
    (mainRun args env).exitCode = 0 := by
  have hrun := mainRun_write_ok hex hsfx hconv hw
  constructor
  · rw [writtenFiles, hrun]
    simp [writtenFilesL_append, writtenFilesL_convEvents,
      writtenFilesL_statusEvents, writtenFilesL_cons_write,
      writtenFilesL_nil, writtenFilesL_mdStatus, writtenFilesL_yamlStatus, hmd]
  · rw [hrun]

/-- C3 witness: converting `doc.pdf` with `-m` writes exactly the converted
Markdown `"hello"` to the resolved path and exits 0. -/
theorem C3_markdown_only_roundtrip_witness :
    writtenFiles (mainRun ⟨"doc.pdf", none, true, false, false⟩ envOk) =
      [(resolve_output_path ⟨"doc.pdf", none, true, false, false⟩, "hello")] ∧
    (mainRun ⟨"doc.pdf", none, true, false, false⟩ envOk).exitCode = 0 :=
  C3_markdown_only_roundtrip ⟨"doc.pdf", none, true, false, false⟩ envOk "hello"
    (by decide) (by decide) rfl rfl rfl

/-- C4 counterexample: with converted Markdown `"hello"`, the file written
in default mode is the template, and the template does not end byte for byte
with the Markdown text — a final newline follows it. -/
theorem C4_counterexample :
    writtenFiles (mainRun ⟨"doc.pdf", none, false, false, false⟩ envOk) =
      [("doc.yaml", markdown_to_yaml_template "hello")] ∧
    ¬ ∃ pre : String, markdown_to_yaml_template "hello" = pre ++ "hello" := by
  constructor
  · rfl
  · rintro ⟨pre, hpre⟩
    have hlast : (markdown_to_yaml_template "hello").data.getLast? = some '\n' := by
      decide
    rw [hpre, String.data_append,
      List.getLast?_append_of_ne_nil _ (by decide)] at hlast
    exact absurd hlast (by decide)

/-- C4 (amended): in default mode, every successful run writes exactly one
file whose content is a fixed scaffold (containing the literal keys `title`,
`purpose`, `features`, `metrics`, `constraints` and ending with the `---`
marker line) followed immediately by the exact converted Markdown text and
then a single final newline. -/
theorem C4_default_mode_template (args : Args) (env : Env) (m : String)
    (hex : env.pathExists args.pdf_file = true)
    (hsfx : strLower (pathSuffix args.pdf_file) = ".pdf")
    (hmd : args.markdown_only = false)
    (hconv : env.convert (converter_request args) = .ok m)
    (hw : env.writeError (resolve_output_path args) = none) :
    ∃ before : String,
      writtenFiles (mainRun args env) =
        [(resolve_output_path args, before ++ m ++ "\n")] ∧
      (∃ b2 : String, before = b2 ++ "---\n") ∧
      (∀ key ∈ (["title", "purpose", "features", "metrics",
          "constraints"] : List String),
        ∃ u v : List Char, before.data = u ++ key.data ++ v) := by
  refine ⟨yaml_template_before, ?_, ?_, ?_⟩
  · have hrun := mainRun_write_ok hex hsfx hconv hw
    rw [writtenFiles, hrun]
    simp [writtenFilesL_append, writtenFilesL_convEvents,
      writtenFilesL_statusEvents, writtenFilesL_cons_write,
      writtenFilesL_nil, writtenFilesL_mdStatus, writtenFilesL_yamlStatus, hmd]
    rfl
  · exact ⟨String.mk (yaml_template_before.data.take 1040), by decide⟩
  · intro key hkey
    simp only [List.mem_cons, List.not_mem_nil, or_false] at hkey
    rcases hkey with rfl | rfl | rfl | rfl | rfl
    · exact ⟨yaml_template_before.data.take 92,
        yaml_template_before.data.drop 97, by decide⟩
    · exact ⟨yaml_template_before.data.take 137,
        yaml_template_before.data.drop 144, by decide⟩
    · exact ⟨yaml_template_before.data.take 199,
        yaml_template_before.data.drop 207, by decide⟩
    · exact ⟨yaml_template_before.data.take 398,
        yaml_template_before.data.drop 405, by decide⟩
    · exact ⟨yaml_template_before.data.take 508,
        yaml_template_before.data.drop 519, by decide⟩

/-- C4 witness: the amended property instantiated on `doc.pdf` with
converted Markdown `"hello"`. -/
theorem C4_default_mode_template_witness :
    ∃ before : String,
      writtenFiles (mainRun ⟨"doc.pdf", none, false, false, false⟩ envOk) =
        [(resolve_output_path ⟨"doc.pdf", none, false, false, false⟩,
          before ++ "hello" ++ "\n")] ∧
      (∃ b2 : String, before = b2 ++ "---\n") ∧
      (∀ key ∈ (["title", "purpose", "features", "metrics",
          "constraints"] : List String),
        ∃ u v : List Char, before.data = u ++ key.data ++ v) :=
  C4_default_mode_template ⟨"doc.pdf", none, false, false, false⟩ envOk "hello"
    (by decide) (by decide) rfl rfl rfl

/-- C5: every run that reaches the conversion step invokes the converter at
exactly the request whose `remove_headers` is the negation of
`--keep-headers` and whose `skip_empty_tables` is the negation of
`--include-empty-tables` (with the fixed `"### Table"` heading): two
environments that agree on everything except the converter function, and
whose converter functions agree at that one request, produce identical
runs. -/
theorem C5_flag_inversion (args : Args) (env₁ env₂ : Env)
    (hpe : env₁.pathExists = env₂.pathExists)
    (hpr : env₁.progressEvents = env₂.progressEvents)
    (hwe : env₁.writeError = env₂.writeError)
    (hcv : env₁.convert
        { path := args.pdf_file
          remove_headers := !args.keep_headers
          skip_empty_tables := !args.include_empty_tables
          table_header := "### Table" } =
      env₂.convert
        { path := args.pdf_file
          remove_headers := !args.keep_headers
          skip_empty_tables := !args.include_empty_tables
          table_header := "### Table" }) :
    mainRun args env₁ = mainRun args env₂ := by
  have hcv' : env₁.convert (converter_request args) =
      env₂.convert (converter_request args) := hcv
  unfold mainRun pdf_to_markdown_events
  rw [hpe, hpr, hwe, hcv']

/-- C5 witness: `envOk` and `envOkVariant` differ as converter functions
but agree at the no-flags request for `doc.pdf`, so the runs coincide. -/
theorem C5_flag_inversion_witness :
    mainRun ⟨"doc.pdf", none, false, false, false⟩ envOk =
      mainRun ⟨"doc.pdf", none, false, false, false⟩ envOkVariant :=
  C5_flag_inversion ⟨"doc.pdf", none, false, false, false⟩ envOk envOkVariant
    rfl rfl rfl rfl

/-- C7: once a run reaches the `try` block, a converter exception and a
write exception are handled identically: the run exits 1, its last stdout
line is the error message prefixed with a newline (the single broad
handler's format), and no file is written. -/
theorem C7_broad_error_handler (args : Args) (env : Env) (e m : String)
    (hex : env.pathExists args.pdf_file = true)
    (hsfx : strLower (pathSuffix args.pdf_file) = ".pdf") :
    (env.convert (converter_request args) = .error e →
      (mainRun args env).exitCode = 1 ∧
      (mainRun args env).events.getLast? = some (.out (convErrMsg e)) ∧
      writtenFiles (mainRun args env) = []) ∧
    (env.convert (converter_request args) = .ok m →
      env.writeError (resolve_output_path args) = some e →
      (mainRun args env).exitCode = 1 ∧
      (mainRun args env).events.getLast? = some (.out (convErrMsg e)) ∧
      writtenFiles (mainRun args env) = []) := by
  constructor
  · intro h3
    have hrun := mainRun_conv_error hex hsfx h3
    refine ⟨by rw [hrun], ?_, ?_⟩
    · rw [hrun]
      exact List.getLast?_concat _
    · rw [writtenFiles, hrun]
      simp [writtenFilesL_append, writtenFilesL_convEvents,
        writtenFilesL_cons_out, writtenFilesL_nil]
  · intro h3 h4
    have hrun := mainRun_write_error hex hsfx h3 h4
    refine ⟨by rw [hrun], ?_, ?_⟩
    · rw [hrun]
      exact List.getLast?_concat _
    · rw [writtenFiles, hrun]
      simp [writtenFilesL_append, writtenFilesL_convEvents,
        writtenFilesL_statusEvents, writtenFilesL_cons_out, writtenFilesL_nil]

/-- C7 witness: a converter exception (`envConvErr`) and a write exception
(`envWriteErr`) both end the `doc.pdf` run with exit 1, the same error-line
format, and no file written. -/
theorem C7_broad_error_handler_witness :
    ((mainRun ⟨"doc.pdf", none, false, false, false⟩ envConvErr).exitCode = 1 ∧
      (mainRun ⟨"doc.pdf", none, false, false, false⟩ envConvErr).events.getLast? =
        some (.out (convErrMsg "boom")) ∧
      writtenFiles (mainRun ⟨"doc.pdf", none, false, false, false⟩ envConvErr) = []) ∧
    ((mainRun ⟨"doc.pdf", none, false, false, false⟩ envWriteErr).exitCode = 1 ∧
      (mainRun ⟨"doc.pdf", none, false, false, false⟩ envWriteErr).events.getLast? =
        some (.out (convErrMsg "denied")) ∧
      writtenFiles (mainRun ⟨"doc.pdf", none, false, false, false⟩ envWriteErr) = []) :=
  ⟨(C7_broad_error_handler ⟨"doc.pdf", none, false, false, false⟩ envConvErr
      "boom" "unused" (by decide) (by decide)).1 rfl,
   (C7_broad_error_handler ⟨"doc.pdf", none, false, false, false⟩ envWriteErr
      "denied" "hello" (by decide) (by decide)).2 rfl rfl⟩

/-- C8: the existence check runs before the extension check — a missing
path is reported `not found` whatever its extension, and the `is not a PDF`
message can only appear in a run whose input path exists. -/
theorem C8_existence_checked_first (args : Args) (env : Env) :
    (env.pathExists args.pdf_file = false →
      mainRun args env = ⟨1, [.out (notFoundMsg args.pdf_file)]⟩) ∧
    (Event.out (notPdfMsg args.pdf_file) ∈ (mainRun args env).events →
      env.pathExists args.pdf_file = true) := by
  constructor
  · exact fun h => mainRun_not_found h
  · intro hmem
    by_cases h : env.pathExists args.pdf_file = true
    · exact h
    · exfalso
      rw [mainRun_not_found (by simpa using h)] at hmem
      simp only [List.mem_singleton, Event.out.injEq] at hmem
      have hlen : (notPdfMsg args.pdf_file).data.length =
          (notFoundMsg args.pdf_file).data.length := by rw [hmem]
      rw [notPdfMsg, notFoundMsg, String.data_append, String.data_append,
        String.data_append, String.data_append] at hlen
      simp only [List.length_append] at hlen
      have h2 : ("' is not a PDF\n" : String).data.length = 15 := rfl
      have h3 : ("' not found\n" : String).data.length = 12 := rfl
      rw [h2, h3] at hlen
      omega

/-- C8 witness: the missing path `missing.txt`, whose extension is not
`.pdf`, is still reported `not found`. -/
theorem C8_existence_checked_first_witness :
    mainRun ⟨"missing.txt", none, false, false, false⟩ envOk =
      ⟨1, [.out (notFoundMsg "missing.txt")]⟩ :=
  (C8_existence_checked_first ⟨"missing.txt", none, false, false, false⟩ envOk).1
    (by decide)

/-- C9: in every mode the save-location confirmation — `Markdown saved to:`
in markdown-only mode, `YAML PRD template saved to:` plus the four-line
next-steps guide in default mode — is printed before the output file is
opened: when the write raises, the run still exits 1 with no file written
but with those messages already in the trace ahead of the error line, and
when the write succeeds the write event comes after them. -/
theorem C9_status_printed_before_write (args : Args) (env : Env) (m : String)
    (hex : env.pathExists args.pdf_file = true)
    (hsfx : strLower (pathSuffix args.pdf_file) = ".pdf")
    (hconv : env.convert (converter_request args) = .ok m) :
    (∀ e, env.writeError (resolve_output_path args) = some e →
      (mainRun args env).exitCode = 1 ∧
      writtenFiles (mainRun args env) = [] ∧
      (mainRun args env).events =
        pdf_to_markdown_events args.pdf_file env ++
          (if args.markdown_only then
            mdStatusEvents (resolve_output_path args)
           else yamlStatusEvents (resolve_output_path args)) ++
          [.out (convErrMsg e)]) ∧
    (env.writeError (resolve_output_path args) = none →
      (mainRun args env).events =
        pdf_to_markdown_events args.pdf_file env ++
          (if args.markdown_only then
            mdStatusEvents (resolve_output_path args)
           else yamlStatusEvents (resolve_output_path args)) ++
          [.fileWrite (resolve_output_path args)
            (if args.markdown_only then m
             else markdown_to_yaml_template m)]) := by
  constructor
  · intro e h4
    have hrun := mainRun_write_error hex hsfx hconv h4
    refine ⟨by rw [hrun], ?_, by rw [hrun]⟩
    rw [writtenFiles, hrun]
    simp [writtenFilesL_append, writtenFilesL_convEvents,
      writtenFilesL_statusEvents, writtenFilesL_cons_out, writtenFilesL_nil]
  · intro h4
    have hrun := mainRun_write_ok hex hsfx hconv h4
    rw [hrun]

/-- C9 witness: with `envWriteErr`, the failing `doc.pdf` runs in
markdown-only mode and in default mode both exit 1 with their confirmation
messages in the trace and no write. -/
theorem C9_status_printed_before_write_witness :
    ((mainRun ⟨"doc.pdf", none, true, false, false⟩ envWriteErr).exitCode = 1 ∧
     writtenFiles (mainRun ⟨"doc.pdf", none, true, false, false⟩ envWriteErr) = [] ∧
     (mainRun ⟨"doc.pdf", none, true, false, false⟩ envWriteErr).events =
       pdf_to_markdown_events "doc.pdf" envWriteErr ++
         mdStatusEvents
           (resolve_output_path ⟨"doc.pdf", none, true, false, false⟩) ++
         [.out (convErrMsg "denied")]) ∧
    ((mainRun ⟨"doc.pdf", none, false, false, false⟩ envWriteErr).exitCode = 1 ∧
     writtenFiles (mainRun ⟨"doc.pdf", none, false, false, false⟩ envWriteErr) = [] ∧
     (mainRun ⟨"doc.pdf", none, false, false, false⟩ envWriteErr).events =
       pdf_to_markdown_events "doc.pdf" envWriteErr ++
         yamlStatusEvents
           (resolve_output_path ⟨"doc.pdf", none, false, false, false⟩) ++
         [.out (convErrMsg "denied")]) :=
  ⟨(C9_status_printed_before_write ⟨"doc.pdf", none, true, false, false⟩
      envWriteErr "hello" (by decide) (by decide) rfl).1 "denied" rfl,
   (C9_status_printed_before_write ⟨"doc.pdf", none, false, false, false⟩
      envWriteErr "hello" (by decide) (by decide) rfl).1 "denied" rfl⟩

theorem getLast?_append_last {l m : List Char} {c : Char}
    (h : m.getLast? = some c) : (l ++ m).getLast? = some c := by
  have hm : m ≠ [] := by
    intro hm
    rw [hm] at h
    simp at h
  rw [List.getLast?_append_of_ne_nil l hm, h]

theorem progress_callback_data (p : Progress) :
    (progress_callback p).data =
      "\rPhase: ".data ++ (p.phase.data ++ (", Page ".data ++
        ((intToDec p.current_page).data ++ ("/".data ++
        ((intToDec p.total_pages).data ++ (", Progress: ".data ++
        ((fmt1 p.percentage).data ++ ("%".data ++
        (if (100 : ℚ) ≤ p.percentage then ("\n" : String)
         else "").data)))))))) := by
  simp only [progress_callback, String.data_append, List.append_assoc]

/-- C6: each progress event makes the handler write one carriage-return-led
line showing the phase, the current page, the total pages and the formatted
percentage, with a terminating newline exactly when the reported percentage
has reached 100 (the line otherwise ends at the `%` sign, ready to be
overwritten). -/
theorem C6_progress_line (p : Progress) :
    (progress_callback p).data.head? = some '\r' ∧
    (∃ u v, (progress_callback p).data = u ++ p.phase.data ++ v) ∧
    (∃ u v, (progress_callback p).data =
      u ++ (intToDec p.current_page).data ++ v) ∧
    (∃ u v, (progress_callback p).data =
      u ++ (intToDec p.total_pages).data ++ v) ∧
    (∃ u v, (progress_callback p).data =
      u ++ (fmt1 p.percentage).data ++ v) ∧
    ((100 : ℚ) ≤ p.percentage →
      (progress_callback p).data.getLast? = some '\n') ∧
    (p.percentage < 100 →
      (progress_callback p).data.getLast? = some '%') := by
  have hd := progress_callback_data p
  refine ⟨?_, ?_, ?_, ?_, ?_, ?_, ?_⟩
  · rw [hd]
    rfl
  · exact ⟨"\rPhase: ".data, _, by rw [hd, List.append_assoc]⟩
  · refine ⟨"\rPhase: ".data ++ p.phase.data ++ ", Page ".data,
      "/".data ++ ((intToDec p.total_pages).data ++ (", Progress: ".data ++
        ((fmt1 p.percentage).data ++ ("%".data ++
        (if (100 : ℚ) ≤ p.percentage then ("\n" : String) else "").data)))),
      ?_⟩
    rw [hd]
    simp [List.append_assoc]
  · refine ⟨"\rPhase: ".data ++ p.phase.data ++ ", Page ".data ++
      (intToDec p.current_page).data ++ "/".data,
      ", Progress: ".data ++ ((fmt1 p.percentage).data ++ ("%".data ++
        (if (100 : ℚ) ≤ p.percentage then ("\n" : String) else "").data)),
      ?_⟩
    rw [hd]
    simp [List.append_assoc]
  · refine ⟨"\rPhase: ".data ++ p.phase.data ++ ", Page ".data ++
      (intToDec p.current_page).data ++ "/".data ++
      (intToDec p.total_pages).data ++ ", Progress: ".data,
      "%".data ++
        (if (100 : ℚ) ≤ p.percentage then ("\n" : String) else "").data,
      ?_⟩
    rw [hd]
    simp [List.append_assoc]
  · intro h
    rw [hd, if_pos h]
    exact getLast?_append_last (getLast?_append_last (getLast?_append_last
      (getLast?_append_last (getLast?_append_last (getLast?_append_last
      (getLast?_append_last (getLast?_append_last
      (getLast?_append_last rfl))))))))
  · intro h
    rw [hd, if_neg (not_le.mpr h)]
    exact getLast?_append_last (getLast?_append_last (getLast?_append_last
      (getLast?_append_last (getLast?_append_last (getLast?_append_last
      (getLast?_append_last (getLast?_append_last rfl)))))))

/-- C6 witness: a 100% event ends with the terminating newline; a 50%
event ends at the `%` sign. -/
theorem C6_progress_line_witness :
    (progress_callback ⟨"Text", 3, 10, 100⟩).data.getLast? = some '\n' ∧
    (progress_callback ⟨"Text", 3, 10, 50⟩).data.getLast? = some '%' :=
  ⟨(C6_progress_line ⟨"Text", 3, 10, 100⟩).2.2.2.2.2.1 (le_refl 100),
   (C6_progress_line ⟨"Text", 3, 10, 50⟩).2.2.2.2.2.2 (by norm_num)⟩

/-! ### Newline counting for the progress stream -/

theorem digit_ne_newline : ∀ d : Nat, d < 10 →
    ((Char.ofNat (48 + d) == '\n') = false) := by decide

theorem count_decDigitsGo (fuel : Nat) : ∀ (n : Nat) (acc : List Char),
    (decDigitsGo fuel n acc).count '\n' = acc.count '\n' := by
  induction fuel with
  | zero => intro n acc; rfl
  | succ fuel ih =>
    intro n acc
    by_cases h : n < 10
    · have he : decDigitsGo (fuel + 1) n acc =
          Char.ofNat (48 + n % 10) :: acc := by
        simp [decDigitsGo, h]
      rw [he, List.count_cons,
        digit_ne_newline (n % 10) (Nat.mod_lt n (by norm_num))]
      simp
    · have he : decDigitsGo (fuel + 1) n acc =
          decDigitsGo fuel (n / 10) (Char.ofNat (48 + n % 10) :: acc) := by
        simp [decDigitsGo, h]
      rw [he, ih, List.count_cons,
        digit_ne_newline (n % 10) (Nat.mod_lt n (by norm_num))]
      simp

theorem countNl_append (s t : String) :
    countNl (s ++ t) = countNl s + countNl t := by
  rw [countNl, countNl, countNl, String.data_append, List.count_append]

theorem countNl_natToDec (n : Nat) : countNl (natToDec n) = 0 := by
  rw [countNl, natToDec]
  show (decDigitsGo (n + 1) n []).count '\n' = 0
  rw [count_decDigitsGo]
  rfl

theorem countNl_intToDec (i : Int) : countNl (intToDec i) = 0 := by
  rw [intToDec, countNl_append, countNl_natToDec]
  by_cases h : i < 0
  · rw [if_pos h]
    rfl
  · rw [if_neg h]
    rfl

theorem countNl_fmt1 (q : ℚ) : countNl (fmt1 q) = 0 := by
  simp only [fmt1]
  rw [countNl_append, countNl_append, countNl_append,
    countNl_natToDec, countNl_natToDec]
  by_cases h : rndHalfEven (q * 10) < 0
  · rw [if_pos h]
    rfl
  · rw [if_neg h]
    rfl

theorem countNl_progress_callback {p : Progress} (h : countNl p.phase = 0) :
    countNl (progress_callback p) =
      if (100 : ℚ) ≤ p.percentage then 1 else 0 := by
  rw [progress_callback]
  rw [countNl_append, countNl_append, countNl_append, countNl_append,
    countNl_append, countNl_append, countNl_append, countNl_append,
    countNl_append]
  rw [countNl_intToDec, countNl_intToDec, countNl_fmt1, h]
  by_cases hc : (100 : ℚ) ≤ p.percentage
  · rw [if_pos hc, if_pos hc]
    rfl
  · rw [if_neg hc, if_neg hc]
    rfl

/-- C10: over any sequence of progress events whose phase labels contain no
newline, the number of newline characters the handler writes equals the
number of events reporting a percentage of at least 100 — so a percentage
above 100 also triggers the terminating newline, repeated 100-or-more
reports produce that many newlines, and a stream that never reaches 100
produces none. -/
theorem C10_newline_per_completion (ps : List Progress)
    (hph : ∀ p ∈ ps, countNl p.phase = 0) :
    countNl (progressStdout ps) =
      ps.countP (fun p => decide ((100 : ℚ) ≤ p.percentage)) := by
  induction ps with
  | nil => rfl
  | cons p ps ih =>
    have h1 := countNl_progress_callback (hph p (List.mem_cons_self p ps))
    have h2 := ih fun q hq => hph q (List.mem_cons_of_mem p hq)
    show countNl (progress_callback p ++
      concatOut (ps.map progress_callback)) = _
    rw [countNl_append, h1,
      show concatOut (ps.map progress_callback) = progressStdout ps from rfl,
      h2, List.countP_cons]
    by_cases hc : (100 : ℚ) ≤ p.percentage
    · simp [hc]
      omega
    · simp [hc]

/-- C10 witness: of three events at 50%, 100% and 101%, exactly the last
two produce a newline. -/
theorem C10_newline_per_completion_witness :
    countNl (progressStdout
      [⟨"Text", 1, 2, 50⟩, ⟨"Text", 2, 2, 100⟩, ⟨"Text", 2, 2, 101⟩]) =
    List.countP (fun p : Progress => decide ((100 : ℚ) ≤ p.percentage))
      [⟨"Text", 1, 2, 50⟩, ⟨"Text", 2, 2, 100⟩, ⟨"Text", 2, 2, 101⟩] :=
  C10_newline_per_completion
    [⟨"Text", 1, 2, 50⟩, ⟨"Text", 2, 2, 100⟩, ⟨"Text", 2, 2, 101⟩]
    (by decide)

end Pdf2Yaml
